import Mathlib

/-!
Verification of `pkg/network/bridge/plugin.go` (kubernetes-device-plugins,
network bridge device plugin).  The Go source is shallowly embedded below:
pure functions become Lean functions, the stateful pieces (the ListAndWatch
poll loop, the attachPods worker and the attachPodToBridge kernel sequence)
become explicit state-passing functions over environments that record the
outcomes of the external calls (netlink, netns, docker lookups, the random
source and JSON marshalling).
-/

/-! ## Constants (from the `const` block of plugin.go)

`interfaceNamePrefix` and `envVarNamePrefix` from the source are named
`interfaceNameHead` and `envVarNameHead` here. -/

def fakeDevicePath : String := "/var/run/device-plugin-network-bridge-fakedev"

def nicsPoolSize : Nat := 100

def interfaceNameLen : Nat := 15

def interfaceNameHead : String := "nic_"

/-- The byte table `letterBytes = "abcdefghijklmnopqrstuvwxyz0123456789"`
from the source, as an explicit character list. -/
def letterBytes : List Char :=
  ['a','b','c','d','e','f','g','h','i','j','k','l','m',
   'n','o','p','q','r','s','t','u','v','w','x','y','z',
   '0','1','2','3','4','5','6','7','8','9']

/-- `assignmentTimeout = 30 * time.Minute`; time is modelled in seconds. -/
def assignmentTimeout : Nat := 30 * 60

def protocolEthernet : String := "Ethernet"

def envVarNameHead : String := "NETWORK_INTERFACE_RESOURCES_"

def envVarNameSuffixLen : Nat := 8

/-! ## Device advertising (`generateBridgeDevices`, `ListAndWatch`) -/

/-- `pluginapi.Device`: an (ID, Health) pair. -/
structure Device where
  ID : String
  Health : String
deriving DecidableEq, Repr

/-- `pluginapi.Healthy`. -/
def Healthy : String := "Healthy"

/-- Go's `fmt.Sprintf("%02d", i)`: decimal, zero-padded to width 2. -/
def go02d (i : Nat) : String :=
  if i < 10 then "0" ++ Nat.repr i else Nat.repr i

/-- `generateBridgeDevices`: the fixed pool of `nicsPoolSize` devices
`"<bridge>-%02d"`, each marked healthy. -/
def generateBridgeDevices (bridge : String) : List Device :=
  (List.range nicsPoolSize).map fun i =>
    { ID := bridge ++ "-" ++ go02d i, Health := Healthy }

/-- The payload `emitResponse` sends for a given `bridgeExists` observation:
the full pool if the bridge exists, the empty device list otherwise. -/
def emitPayload (bridge : String) (bridgeExistsNow : Bool) : List Device :=
  if bridgeExistsNow then generateBridgeDevices bridge else []

/-- The poll loop of `ListAndWatch` after the initial send: `did` is the
last-emitted existence state, the list holds the successive `bridgeExists`
observations (one per 10-second tick); a message is sent only when the
observation differs from `did`. -/
def lawLoop (bridge : String) (did : Bool) : List Bool → List (List Device)
  | [] => []
  | does :: rest =>
    if did ≠ does then emitPayload bridge does :: lawLoop bridge does rest
    else lawLoop bridge did rest

/-- `ListAndWatch`: the initial observation is emitted unconditionally, then
the poll loop runs over the remaining observations.  The returned list is the
full stream of sent messages, in order. -/
def listAndWatch (bridge : String) (first : Bool) (rest : List Bool) :
    List (List Device) :=
  emitPayload bridge first :: lawLoop bridge first rest

/-- Spec-side: the subsequence of observations at which the existence state
transitions, given last-emitted state `last` ("one message per transition"). -/
def transitionsFrom (last : Bool) : List Bool → List Bool
  | [] => []
  | o :: rest =>
    if last ≠ o then o :: transitionsFrom o rest
    else transitionsFrom last rest

/-! ## Allocation (`Allocate`, `getAssignmentPath`, `randString`) -/

/-- The `Assignment` record sent on `assignmentCh`. -/
structure Assignment where
  DeviceID : String
  ContainerPath : String
  Created : Nat
deriving DecidableEq, Repr

def getAssignmentPath (bridge nic : String) : String :=
  "/tmp/device-plugin-network-bridge/" ++ bridge ++ "/" ++ nic

/-- `randString(length)`: each `rand.Intn(len(letterBytes))` call takes the
next value of the random stream `rng` (reduced mod 36, the table size);
`start` counts the stream values already consumed by earlier calls. -/
def randString (rng : Nat → Nat) (start length : Nat) : String :=
  ⟨(List.range length).map fun i =>
      letterBytes.getD (rng (start + i) % letterBytes.length) 'a'⟩

/-- `strings.ToUpper` on the ASCII strings produced by `randString`. -/
def goToUpper (s : String) : String := ⟨s.data.map Char.toUpper⟩

structure vnic where
  Name : String
  Protocol : String
deriving DecidableEq, Repr

structure networkInterfaceResources where
  Name : String
  Interfaces : List vnic
deriving DecidableEq, Repr

/-- `pluginapi.DeviceSpec`. -/
structure DeviceSpec where
  HostPath : String
  ContainerPath : String
  Permissions : String
deriving DecidableEq, Repr

/-- `pluginapi.ContainerAllocateResponse`: device specs plus the `Envs` map
(which `Allocate` always builds with a single entry). -/
structure ContainerAllocateResponse where
  Devices : List DeviceSpec
  Envs : List (String × String)
deriving DecidableEq, Repr

/-- Result of `Allocate`: the container responses, the assignments sent on
`assignmentCh` (in send order), and the returned error, which the source
always sets to nil (`return &response, nil`). -/
structure AllocateResult where
  ContainerResponses : List ContainerAllocateResponse
  sentAssignments : List Assignment
  err : Option String
deriving DecidableEq, Repr

/-- The `networkInterfaceResources` value built for one container request:
`fmt.Sprintf("%s/%s", resourceNamespace, nbdp.bridge)` plus one
`(deviceID, "Ethernet")` entry per requested device ID, in request order. -/
def requestNIR (resourceNamespace bridge : String) (deviceIDs : List String) :
    networkInterfaceResources :=
  { Name := resourceNamespace ++ "/" ++ bridge
  , Interfaces := deviceIDs.map fun nic => { Name := nic, Protocol := protocolEthernet } }

/-- The randomized environment-variable name built for a container request,
when `k` random-stream values have already been consumed by this call. -/
def allocEnvVarName (rng : Nat → Nat) (k : Nat) : String :=
  envVarNameHead ++ goToUpper (randString rng k envVarNameSuffixLen)

/-- The loop body of `Allocate` over `r.ContainerRequests`.  `marshal` models
`json.Marshal` (`none` = marshalling error: the response entry is skipped and
the loop continues); note the assignments are sent on the channel inside the
device loop, before `json.Marshal` runs. -/
def allocGo (marshal : networkInterfaceResources → Option String)
    (rng : Nat → Nat) (resourceNamespace bridge : String) (now k : Nat) :
    List (List String) → List ContainerAllocateResponse × List Assignment
  | [] => ([], [])
  | deviceIDs :: rest =>
    let devices : List DeviceSpec := deviceIDs.map fun nic =>
      { HostPath := fakeDevicePath
      , ContainerPath := getAssignmentPath bridge nic
      , Permissions := "r" }
    let asgs : List Assignment := deviceIDs.map fun nic =>
      { DeviceID := nic, ContainerPath := getAssignmentPath bridge nic, Created := now }
    let envVarName := allocEnvVarName rng k
    let r := allocGo marshal rng resourceNamespace bridge now
      (k + envVarNameSuffixLen) rest
    match marshal (requestNIR resourceNamespace bridge deviceIDs) with
    | none => (r.1, asgs ++ r.2)
    | some marshalled =>
      ({ Devices := devices, Envs := [(envVarName, marshalled)] } :: r.1, asgs ++ r.2)

/-- `Allocate`: `requests` is the list of container requests, each a list of
requested device IDs; `now` models `time.Now()` at the call. -/
def Allocate (marshal : networkInterfaceResources → Option String)
    (rng : Nat → Nat) (resourceNamespace bridge : String) (now : Nat)
    (requests : List (List String)) : AllocateResult :=
  let r := allocGo marshal rng resourceNamespace bridge now 0 requests
  { ContainerResponses := r.1, sentAssignments := r.2, err := none }

/-- The environment-variable names of a response list, in order. -/
def envNamesOf (rs : List ContainerAllocateResponse) : List String :=
  (rs.map fun r => r.Envs.map Prod.fst).flatten

/-! ## Assignment pipeline (`attachPods`)

One iteration of the outer loop receives at most one new `Assignment` from
`assignmentCh` (pushed at the back of `pendingAssignments`) and then runs one
pass of the inner `for a := pendingAssignments.Front(); a != nil; a = a.Next()`
loop.  Entries are tagged with the order in which they were received, so
distinct queue entries with equal payloads stay distinguishable. -/

/-- The per-pass environment: the current time and the outcomes of the
external calls (docker lookups, `attachPodToBridge`). -/
structure ScanEnv where
  now : Nat
  getContainerIDByMountedDevice : String → Option String
  getPidByContainerID : String → Option Nat
  attachResult : String → Nat → Option String

/-- Observable events of one pass: an entry expired and was dropped, or
`attachPodToBridge` was invoked for it (with the device ID's pid and the
call's result). -/
inductive PipeEvent
  | expired (tag : Nat)
  | attach (tag : Nat) (containerPid : Nat) (result : Option String)
deriving DecidableEq, Repr

def eventTag : PipeEvent → Nat
  | .expired t => t
  | .attach t _ _ => t

/-- Tags of the entries for which `attachPodToBridge` was invoked. -/
def attachTags (evs : List PipeEvent) : List Nat :=
  evs.filterMap fun e =>
    match e with
    | .attach t _ _ => some t
    | .expired _ => none

/-- `time.Now().After(assignment.Created.Add(assignmentTimeout))`. -/
def expiredAt (env : ScanEnv) (a : Assignment) : Prop :=
  env.now > a.Created + assignmentTimeout

instance (env : ScanEnv) (a : Assignment) : Decidable (expiredAt env a) :=
  inferInstanceAs (Decidable (_ < _))

/-- The two-step discovery: container by mounted device, then pid. -/
def resolves (env : ScanEnv) (a : Assignment) : Option Nat :=
  match env.getContainerIDByMountedDevice a.ContainerPath with
  | none => none
  | some containerID => env.getPidByContainerID containerID

/-- An entry the pass leaves in the list: not expired, and discovery has not
resolved a pid yet (both lookup failures `continue` to the next entry). -/
def leftInPlace (env : ScanEnv) (a : Assignment) : Prop :=
  ¬ expiredAt env a ∧ resolves env a = none

/-- One pass of the inner loop.  Modelled Go behaviour: after
`pendingAssignments.Remove(a)`, `container/list` nils the element's links,
so the loop's post statement `a = a.Next()` yields nil and the pass ends
right there.  A pass therefore walks the list in order up to the first entry
that is expired or resolved, removes exactly that entry (invoking
`attachPodToBridge` iff it resolved), and stops; if no entry is expired or
resolved the whole list is visited and kept. -/
def scanPending (env : ScanEnv) :
    List (Nat × Assignment) → List (Nat × Assignment) × List PipeEvent
  | [] => ([], [])
  | (t, a) :: rest =>
    if expiredAt env a then
      (rest, [.expired t])
    else
      match env.getContainerIDByMountedDevice a.ContainerPath with
      | none =>
        let r := scanPending env rest
        ((t, a) :: r.1, r.2)
      | some containerID =>
        match env.getPidByContainerID containerID with
        | none =>
          let r := scanPending env rest
          ((t, a) :: r.1, r.2)
        | some containerPid =>
          (rest, [.attach t containerPid (env.attachResult a.DeviceID containerPid)])

/-- One iteration of the outer loop: the `select` receives at most one new
assignment, then one pass over the pending list runs. -/
structure StepInput where
  arrival : Option Assignment
  env : ScanEnv

structure PipeState where
  pending : List (Nat × Assignment)
  nextTag : Nat
  trace : List PipeEvent

def pipeInit : PipeState := { pending := [], nextTag := 0, trace := [] }

def pipeStep (s : PipeState) (inp : StepInput) : PipeState :=
  let pn : List (Nat × Assignment) × Nat :=
    match inp.arrival with
    | some a => (s.pending ++ [(s.nextTag, a)], s.nextTag + 1)
    | none => (s.pending, s.nextTag)
  let r := scanPending inp.env pn.1
  { pending := r.1, nextTag := pn.2, trace := s.trace ++ r.2 }

def pipeRun (inps : List StepInput) : PipeState := inps.foldl pipeStep pipeInit

/-- The single-worker invariant: pending tags and trace tags are pairwise
distinct, and all are below the next fresh tag. -/
def pipeInv (s : PipeState) : Prop :=
  (s.pending.map Prod.fst ++ s.trace.map eventTag).Nodup
    ∧ ∀ t ∈ s.pending.map Prod.fst ++ s.trace.map eventTag, t < s.nextTag

/-! ## JSON marshalling (model of `encoding/json` on the payload structs) -/

/-- Lower-case hexadecimal digit. -/
def hexDigit (n : Nat) : Char :=
  if n < 10 then Char.ofNat (48 + n) else Char.ofNat (87 + n)

/-- Go `encoding/json` string escaping (the default HTML-escaping encoder)
for one character. -/
def goJSONEscapeChar (c : Char) : List Char :=
  if c = '"' then ['\\', '"']
  else if c = '\\' then ['\\', '\\']
  else if c = '\n' then ['\\', 'n']
  else if c = '\r' then ['\\', 'r']
  else if c = '\t' then ['\\', 't']
  else if c = '<' then ['\\', 'u', '0', '0', '3', 'c']
  else if c = '>' then ['\\', 'u', '0', '0', '3', 'e']
  else if c = '&' then ['\\', 'u', '0', '0', '2', '6']
  else if c.toNat < 32 then
    ['\\', 'u', '0', '0', hexDigit (c.toNat / 16), hexDigit (c.toNat % 16)]
  else [c]

def goJSONEscape : List Char → List Char
  | [] => []
  | c :: cs => goJSONEscapeChar c ++ goJSONEscape cs

/-- A Go JSON string literal: quotes around the escaped contents. -/
def goJSONQuote (s : String) : String :=
  ⟨'"' :: (goJSONEscape s.data ++ ['"'])⟩

/-- `json.Marshal` of one `vnic` value (fields in declaration order, with the
`json:"name"` / `json:"protocol"` tags of the source). -/
def goMarshalVnic (v : vnic) : String :=
  "\x7b\"name\":" ++ goJSONQuote v.Name ++ ",\"protocol\":"
    ++ goJSONQuote v.Protocol ++ "\x7d"

/-- `json.Marshal` of a `networkInterfaceResources` value; a nil
`Interfaces` slice (request with no device IDs) marshals as `null`. -/
def goMarshalNIR (r : networkInterfaceResources) : String :=
  "\x7b\"name\":" ++ goJSONQuote r.Name ++ ",\"interfaces\":"
    ++ (match r.Interfaces with
        | [] => "null"
        | l => "[" ++ String.intercalate "," (l.map goMarshalVnic) ++ "]")
    ++ "\x7d"

/-- A character the Go JSON encoder copies verbatim (printable ASCII that is
not a quote, backslash or HTML-escaped character). -/
def jsonSafeChar (c : Char) : Prop :=
  32 ≤ c.toNat ∧ c.toNat < 127 ∧ c ≠ '"' ∧ c ≠ '\\' ∧ c ≠ '<' ∧ c ≠ '>' ∧ c ≠ '&'

instance (c : Char) : Decidable (jsonSafeChar c) :=
  inferInstanceAs (Decidable (_ ∧ _ ∧ _ ∧ _ ∧ _ ∧ _ ∧ _))

def jsonSafe (s : String) : Prop := ∀ c ∈ s.data, jsonSafeChar c

instance (s : String) : Decidable (jsonSafe s) :=
  inferInstanceAs (Decidable (∀ c ∈ s.data, jsonSafeChar c))

/-- Spec-side rendering of one interface entry:
`{"name":"<d>","protocol":"Ethernet"}`. -/
def specInterfaceJson (d : String) : String :=
  "\x7b\"name\":\"" ++ d ++ "\",\"protocol\":\"Ethernet\"\x7d"

/-- Spec-side rendering of the environment-variable value:
`{"name":"<namespace>/<bridge>","interfaces":[...]}` with one entry per
requested device ID, in request order. -/
def specEnvValueJson (resourceNamespace bridge : String) (ds : List String) :
    String :=
  "\x7b\"name\":\"" ++ resourceNamespace ++ "/" ++ bridge
    ++ "\",\"interfaces\":[" ++ String.intercalate "," (ds.map specInterfaceJson)
    ++ "]\x7d"

/-- An upper-case ASCII letter or a decimal digit. -/
def isUpperAlnum (c : Char) : Prop :=
  (65 ≤ c.toNat ∧ c.toNat ≤ 90) ∨ (48 ≤ c.toNat ∧ c.toNat ≤ 57)

instance (c : Char) : Decidable (isUpperAlnum c) :=
  inferInstanceAs
    (Decidable ((65 ≤ c.toNat ∧ c.toNat ≤ 90) ∨ (48 ≤ c.toNat ∧ c.toNat ≤ 57)))

/-! ## Claims about the assignment pipeline -/

/-- Sample pass environment: the second entry's path resolves to a container
with pid 42; used to exhibit the early end of a pass after a removal. -/
def scanEnvRemoval : ScanEnv :=
  { now := 10000
  , getContainerIDByMountedDevice := fun p =>
      if p = getAssignmentPath "br0" "br0-01" then some "container-1" else none
  , getPidByContainerID := fun c => if c = "container-1" then some 42 else none
  , attachResult := fun _ _ => none }

/-- An assignment created at time 0: expired at time 10000. -/
def asgStale : Assignment :=
  { DeviceID := "br0-00", ContainerPath := getAssignmentPath "br0" "br0-00"
  , Created := 0 }

/-- An assignment created at time 9000: not expired at time 10000 and
resolvable in `scanEnvRemoval`. -/
def asgReady : Assignment :=
  { DeviceID := "br0-01", ContainerPath := getAssignmentPath "br0" "br0-01"
  , Created := 9000 }

/-- Sample pass environment for the witness of C4: one resolvable entry. -/
def scanEnvResolved : ScanEnv :=
  { now := 100
  , getContainerIDByMountedDevice := fun p =>
      if p = getAssignmentPath "br0" "br0-03" then some "container-3" else none
  , getPidByContainerID := fun c => if c = "container-3" then some 1234 else none
  , attachResult := fun _ _ => none }

def asgResolved : Assignment :=
  { DeviceID := "br0-03", ContainerPath := getAssignmentPath "br0" "br0-03"
  , Created := 50 }

/-- Pass environment in which discovery never resolves anything. -/
def scanEnvAllExpired : ScanEnv :=
  { now := 10000
  , getContainerIDByMountedDevice := fun _ => none
  , getPidByContainerID := fun _ => none
  , attachResult := fun _ _ => none }

def asgStaleOld : Assignment :=
  { DeviceID := "br0-04", ContainerPath := getAssignmentPath "br0" "br0-04"
  , Created := 0 }

def asgStaleYoung : Assignment :=
  { DeviceID := "br0-05", ContainerPath := getAssignmentPath "br0" "br0-05"
  , Created := 100 }

/-! ## Attachment engine (`attachPodToBridge`) -/

inductive AttachOutcome
  | ok
  | fault (step : String)
  | panicked
deriving DecidableEq, Repr

/-- Outcomes of the kernel/namespace calls `attachPodToBridge` makes, in
source order (`true` = the call succeeds), plus the namespace values
involved: `initialNS` is the calling thread's namespace on entry (what
`netns.Get` snapshots as "original"), `containerNS` the namespace
`netns.GetFromPid` resolves for the container. -/
structure AttachEnv where
  linkByNameBridgeOk : Bool
  linkAddOk : Bool
  linkSetUpHostOk : Bool
  linkByNamePeerOk : Bool
  linkSetNsPidOk : Bool
  netnsGetOk : Bool
  netnsGetFromPidOk : Bool
  netnsSetOk : Bool
  netnsRestoreOk : Bool
  linkByNamePeerInNSOk : Bool
  linkSetMTUOk : Bool
  linkSetUpPeerOk : Bool
  initialNS : Nat
  containerNS : Nat
deriving DecidableEq, Repr

/-- What a call to `attachPodToBridge` leaves behind: its outcome, whether
the host-side veth link (and with it the pair) still exists, the calling
thread's namespace after the call, and whether the thread was ever switched
into the container's namespace during the call. -/
structure AttachResult where
  outcome : AttachOutcome
  hostLinkExists : Bool
  threadNS : Nat
  switched : Bool
deriving DecidableEq, Repr

/-- The steps executed inside the container's namespace (after `netns.Set`
succeeded): re-fetch the peer by name, set its MTU, bring it up.  Every
failure runs `netlink.LinkDel(link)` — deleting the host end removes the
veth pair as a unit — so the second component (whether the pair still
exists) is false exactly on fault. -/
def attachInNS (env : AttachEnv) : AttachOutcome × Bool :=
  if !env.linkByNamePeerInNSOk then
    (.fault "LinkByName peer in container namespace", false)
  else if !env.linkSetMTUOk then (.fault "LinkSetMTU", false)
  else if !env.linkSetUpPeerOk then (.fault "LinkSetUp peer", false)
  else (.ok, true)

/-- `attachPodToBridge`.  Failures before `netlink.LinkAdd` return with
nothing created; failures from `LinkSetUp` on run `netlink.LinkDel(link)`
before returning.  Once `netns.Set(ns)` has succeeded the deferred
`netns.Set(originalNS)` runs on every exit path: if that restoration
succeeds the thread is back in the original namespace and the body's outcome
is returned; if it fails the deferred function panics. -/
def attachPodToBridge (env : AttachEnv) : AttachResult :=
  if !env.linkByNameBridgeOk then
    { outcome := .fault "LinkByName bridge", hostLinkExists := false
    , threadNS := env.initialNS, switched := false }
  else if !env.linkAddOk then
    { outcome := .fault "LinkAdd", hostLinkExists := false
    , threadNS := env.initialNS, switched := false }
  else if !env.linkSetUpHostOk then
    { outcome := .fault "LinkSetUp host", hostLinkExists := false
    , threadNS := env.initialNS, switched := false }
  else if !env.linkByNamePeerOk then
    { outcome := .fault "LinkByName peer", hostLinkExists := false
    , threadNS := env.initialNS, switched := false }
  else if !env.linkSetNsPidOk then
    { outcome := .fault "LinkSetNsPid", hostLinkExists := false
    , threadNS := env.initialNS, switched := false }
  else if !env.netnsGetOk then
    { outcome := .fault "netns.Get", hostLinkExists := false
    , threadNS := env.initialNS, switched := false }
  else if !env.netnsGetFromPidOk then
    { outcome := .fault "netns.GetFromPid", hostLinkExists := false
    , threadNS := env.initialNS, switched := false }
  else if !env.netnsSetOk then
    { outcome := .fault "netns.Set", hostLinkExists := false
    , threadNS := env.initialNS, switched := false }
  else if env.netnsRestoreOk then
    { outcome := (attachInNS env).1, hostLinkExists := (attachInNS env).2
    , threadNS := env.initialNS, switched := true }
  else
    { outcome := .panicked, hostLinkExists := (attachInNS env).2
    , threadNS := env.containerNS, switched := true }

/-- Sample environment for the spec's step-11 scenario: every call succeeds
except `LinkSetMTU`; restoration succeeds. -/
def attachEnvMTUFault : AttachEnv :=
  { linkByNameBridgeOk := true, linkAddOk := true, linkSetUpHostOk := true
  , linkByNamePeerOk := true, linkSetNsPidOk := true, netnsGetOk := true
  , netnsGetFromPidOk := true, netnsSetOk := true, netnsRestoreOk := true
  , linkByNamePeerInNSOk := true, linkSetMTUOk := false
  , linkSetUpPeerOk := true, initialNS := 1, containerNS := 2 }

/-- Sample environment in which the deferred restoration of the original
namespace fails. -/
def attachEnvRestoreFault : AttachEnv :=
  { linkByNameBridgeOk := true, linkAddOk := true, linkSetUpHostOk := true
  , linkByNamePeerOk := true, linkSetNsPidOk := true, netnsGetOk := true
  , netnsGetFromPidOk := true, netnsSetOk := true, netnsRestoreOk := false
  , linkByNamePeerInNSOk := true, linkSetMTUOk := true
  , linkSetUpPeerOk := true, initialNS := 1, containerNS := 2 }

/-! ## Lemmas and claim theorems -/

theorem lawLoop_eq_map_transitions (bridge : String) (did : Bool)
    (obs : List Bool) :
    lawLoop bridge did obs = (transitionsFrom did obs).map (emitPayload bridge) := by
  induction obs generalizing did with
  | nil => rfl
  | cons o rest ih =>
    by_cases h : did = o
    · subst h
      simp [lawLoop, transitionsFrom, ih]
    · simp [lawLoop, transitionsFrom, h, ih]

/-- C6: over any observation sequence, the stream of ListAndWatch messages is
exactly one message for the initial state followed by one message per
existence transition (so ticks with no transition emit nothing); the first
message reflects the state at stream start; a present-state message carries
the 100 devices `"<bridge>-00" .. "<bridge>-99"`, all healthy, and an
absent-state message is the empty device list. -/
theorem claim6_listAndWatch_one_message_per_transition
    (bridge : String) (first : Bool) (rest : List Bool) :
    listAndWatch bridge first rest
        = (first :: transitionsFrom first rest).map (emitPayload bridge)
      ∧ (listAndWatch bridge first rest).length
        = 1 + (transitionsFrom first rest).length
      ∧ (listAndWatch bridge first rest).head? = some (emitPayload bridge first)
      ∧ emitPayload bridge true
        = (List.range 100).map
            (fun i => { ID := bridge ++ "-" ++ go02d i, Health := "Healthy" })
      ∧ (emitPayload bridge true).length = 100
      ∧ (∀ d ∈ emitPayload bridge true, d.Health = Healthy)
      ∧ emitPayload bridge false = [] := by
  refine ⟨?_, ?_, ?_, ?_, ?_, ?_, ?_⟩
  · simp [listAndWatch, lawLoop_eq_map_transitions]
  · simp [listAndWatch, lawLoop_eq_map_transitions, Nat.add_comm]
  · rfl
  · simp [emitPayload, generateBridgeDevices, nicsPoolSize, Healthy]
  · simp [emitPayload, generateBridgeDevices, nicsPoolSize]
  · intro d hd
    simp only [emitPayload, if_pos, generateBridgeDevices, List.mem_map] at hd
    obtain ⟨i, _, rfl⟩ := hd
    rfl
  · rfl

theorem allocGo_assignments (marshal : networkInterfaceResources → Option String)
    (rng : Nat → Nat) (ns bridge : String) (now : Nat) (reqs : List (List String)) :
    ∀ k, (allocGo marshal rng ns bridge now k reqs).2
      = reqs.flatten.map fun nic =>
          { DeviceID := nic, ContainerPath := getAssignmentPath bridge nic
          , Created := now } := by
  induction reqs with
  | nil => intro k; rfl
  | cons ds rest ih =>
    intro k
    cases h : marshal (requestNIR ns bridge ds) <;>
      simp [allocGo, h, ih]

theorem allocGo_responses_devices
    (marshal : networkInterfaceResources → Option String)
    (rng : Nat → Nat) (ns bridge : String) (now : Nat) (reqs : List (List String)) :
    ∀ k, (allocGo marshal rng ns bridge now k reqs).1.map ContainerAllocateResponse.Devices
      = (reqs.filter fun ds => (marshal (requestNIR ns bridge ds)).isSome).map
          fun ds => ds.map fun nic =>
            { HostPath := fakeDevicePath
            , ContainerPath := getAssignmentPath bridge nic
            , Permissions := "r" } := by
  induction reqs with
  | nil => intro k; rfl
  | cons ds rest ih =>
    intro k
    cases h : marshal (requestNIR ns bridge ds) <;>
      simp [allocGo, h, ih, List.filter_cons]

/-- C7: every `Allocate` call returns nil error, enqueues exactly one
Assignment per requested device ID (M in total, in request order), and
produces exactly one response entry per container request in request order,
omitting exactly the requests whose descriptor marshalling fails. -/
theorem claim7_allocate_responses_and_assignments
    (marshal : networkInterfaceResources → Option String)
    (rng : Nat → Nat) (ns bridge : String) (now : Nat) (reqs : List (List String)) :
    (Allocate marshal rng ns bridge now reqs).err = none
      ∧ (Allocate marshal rng ns bridge now reqs).sentAssignments
        = reqs.flatten.map (fun nic =>
            { DeviceID := nic, ContainerPath := getAssignmentPath bridge nic
            , Created := now })
      ∧ (Allocate marshal rng ns bridge now reqs).sentAssignments.length
        = (reqs.map List.length).sum
      ∧ (Allocate marshal rng ns bridge now reqs).ContainerResponses.map
          ContainerAllocateResponse.Devices
        = (reqs.filter fun ds => (marshal (requestNIR ns bridge ds)).isSome).map
            fun ds => ds.map fun nic =>
              { HostPath := fakeDevicePath
              , ContainerPath := getAssignmentPath bridge nic
              , Permissions := "r" } := by
  refine ⟨rfl, allocGo_assignments marshal rng ns bridge now reqs 0, ?_, allocGo_responses_devices marshal rng ns bridge now reqs 0⟩
  rw [Allocate]
  simp [allocGo_assignments marshal rng ns bridge now reqs 0,
    Function.comp_def, List.length_map]

/-- C10: the assignments sent on the channel do not depend on the outcome of
`json.Marshal` (they are sent before it runs); in particular a request whose
descriptor fails to marshal contributes no response entry but all of its
Assignments are still enqueued. -/
theorem claim10_assignments_sent_before_marshal
    (marshal marshal' : networkInterfaceResources → Option String)
    (rng : Nat → Nat) (ns bridge : String) (now : Nat) (reqs : List (List String)) :
    (Allocate marshal rng ns bridge now reqs).sentAssignments
      = (Allocate marshal' rng ns bridge now reqs).sentAssignments
    ∧ ∀ deviceIDs : List String,
        marshal (requestNIR ns bridge deviceIDs) = none →
        (Allocate marshal rng ns bridge now [deviceIDs]).ContainerResponses = []
          ∧ (Allocate marshal rng ns bridge now [deviceIDs]).sentAssignments
            = deviceIDs.map fun nic =>
                { DeviceID := nic, ContainerPath := getAssignmentPath bridge nic
                , Created := now } := by
  constructor
  · rw [Allocate, Allocate]
    simp [allocGo_assignments marshal rng ns bridge now reqs 0,
      allocGo_assignments marshal' rng ns bridge now reqs 0]
  · intro deviceIDs h
    constructor
    · simp [Allocate, allocGo, h]
    · simp [Allocate, allocGo, h]

theorem scanPending_perm (env : ScanEnv) (p : List (Nat × Assignment)) :
    List.Perm
      ((scanPending env p).1.map Prod.fst ++ (scanPending env p).2.map eventTag)
      (p.map Prod.fst) := by
  induction p with
  | nil => simp [scanPending]
  | cons ta rest ih =>
    obtain ⟨t, a⟩ := ta
    by_cases hexp : expiredAt env a
    · simp only [scanPending, hexp, if_true, List.map_cons, List.map_nil]
      simpa [eventTag] using List.perm_append_singleton t (rest.map Prod.fst)
    · cases hc : env.getContainerIDByMountedDevice a.ContainerPath with
      | none =>
        simp only [scanPending, hexp, if_false, hc, List.map_cons, List.cons_append]
        exact (ih.cons t)
      | some containerID =>
        cases hp : env.getPidByContainerID containerID with
        | none =>
          simp only [scanPending, hexp, if_false, hc, hp, List.map_cons,
            List.cons_append]
          exact (ih.cons t)
        | some containerPid =>
          simp only [scanPending, hexp, if_false, hc, hp, List.map_cons,
            List.map_nil]
          simpa [eventTag] using List.perm_append_singleton t (rest.map Prod.fst)

theorem scanPending_attach_mem (env : ScanEnv) (p : List (Nat × Assignment))
    (t containerPid : Nat) (res : Option String)
    (h : PipeEvent.attach t containerPid res ∈ (scanPending env p).2) :
    ∃ a, (t, a) ∈ p ∧ ¬ expiredAt env a ∧ resolves env a = some containerPid
      ∧ res = env.attachResult a.DeviceID containerPid := by
  induction p with
  | nil => simp [scanPending] at h
  | cons ta rest ih =>
    obtain ⟨t', a⟩ := ta
    by_cases hexp : expiredAt env a
    · simp only [scanPending, hexp, if_true, List.mem_singleton] at h
      cases h
    · cases hc : env.getContainerIDByMountedDevice a.ContainerPath with
      | none =>
        simp only [scanPending, hexp, if_false, hc] at h
        obtain ⟨a', ha', h2, h3, h4⟩ := ih h
        exact ⟨a', List.mem_cons_of_mem _ ha', h2, h3, h4⟩
      | some containerID =>
        cases hp : env.getPidByContainerID containerID with
        | none =>
          simp only [scanPending, hexp, if_false, hc, hp] at h
          obtain ⟨a', ha', h2, h3, h4⟩ := ih h
          exact ⟨a', List.mem_cons_of_mem _ ha', h2, h3, h4⟩
        | some containerPid' =>
          simp only [scanPending, hexp, if_false, hc, hp,
            List.mem_singleton, PipeEvent.attach.injEq] at h
          obtain ⟨rfl, rfl, rfl⟩ := h
          exact ⟨a, List.mem_cons_self _ _, hexp, by simp [resolves, hc, hp], rfl⟩

theorem scanPending_skip (env : ScanEnv) (p₁ p₂ : List (Nat × Assignment))
    (h : ∀ x ∈ p₁, leftInPlace env x.2) :
    scanPending env (p₁ ++ p₂)
      = (p₁ ++ (scanPending env p₂).1, (scanPending env p₂).2) := by
  induction p₁ with
  | nil => simp
  | cons x rest ih =>
    obtain ⟨t, a⟩ := x
    obtain ⟨hnexp, hnres⟩ := h (t, a) (List.mem_cons_self _ _)
    have hrest : ∀ x ∈ rest, leftInPlace env x.2 :=
      fun x hx => h x (List.mem_cons_of_mem _ hx)
    cases hc : env.getContainerIDByMountedDevice a.ContainerPath with
    | none =>
      simp [scanPending, hnexp, hc, ih hrest]
    | some containerID =>
      have hp : env.getPidByContainerID containerID = none := by
        have := hnres
        rw [resolves, hc] at this
        exact this
      simp [scanPending, hnexp, hc, hp, ih hrest]

theorem scanPending_reaches_expired (env : ScanEnv)
    (p₁ p₂ : List (Nat × Assignment)) (t : Nat) (a : Assignment)
    (h : ∀ x ∈ p₁, leftInPlace env x.2) (ha : expiredAt env a) :
    scanPending env (p₁ ++ (t, a) :: p₂) = (p₁ ++ p₂, [PipeEvent.expired t]) := by
  rw [scanPending_skip env p₁ _ h]
  simp [scanPending, ha]

theorem scanPending_reaches_resolved (env : ScanEnv)
    (p₁ p₂ : List (Nat × Assignment)) (t : Nat) (a : Assignment)
    (containerPid : Nat) (h : ∀ x ∈ p₁, leftInPlace env x.2)
    (hnexp : ¬ expiredAt env a) (hres : resolves env a = some containerPid) :
    scanPending env (p₁ ++ (t, a) :: p₂)
      = (p₁ ++ p₂,
         [PipeEvent.attach t containerPid
            (env.attachResult a.DeviceID containerPid)]) := by
  rw [scanPending_skip env p₁ _ h]
  rw [resolves] at hres
  cases hc : env.getContainerIDByMountedDevice a.ContainerPath with
  | none => rw [hc] at hres; cases hres
  | some containerID =>
    rw [hc] at hres
    have hp : env.getPidByContainerID containerID = some containerPid := hres
    simp [scanPending, hnexp, hc, hp]

theorem pipeInv_scan (env : ScanEnv) {p : List (Nat × Assignment)}
    {tr : List PipeEvent} {n : Nat}
    (hnd : (p.map Prod.fst ++ tr.map eventTag).Nodup)
    (hlt : ∀ t ∈ p.map Prod.fst ++ tr.map eventTag, t < n) :
    ((scanPending env p).1.map Prod.fst
        ++ (tr ++ (scanPending env p).2).map eventTag).Nodup
      ∧ ∀ t ∈ (scanPending env p).1.map Prod.fst
          ++ (tr ++ (scanPending env p).2).map eventTag, t < n := by
  have hperm := scanPending_perm env p
  have h1 : List.Perm
      ((scanPending env p).1.map Prod.fst
        ++ (tr.map eventTag ++ (scanPending env p).2.map eventTag))
      ((scanPending env p).1.map Prod.fst
        ++ ((scanPending env p).2.map eventTag ++ tr.map eventTag)) :=
    List.Perm.append_left _ List.perm_append_comm
  have h2 : List.Perm
      ((scanPending env p).1.map Prod.fst
        ++ ((scanPending env p).2.map eventTag ++ tr.map eventTag))
      (p.map Prod.fst ++ tr.map eventTag) := by
    rw [← List.append_assoc]
    exact hperm.append_right _
  have key : List.Perm
      ((scanPending env p).1.map Prod.fst
        ++ (tr ++ (scanPending env p).2).map eventTag)
      (p.map Prod.fst ++ tr.map eventTag) := by
    rw [List.map_append]
    exact h1.trans h2
  exact ⟨key.nodup_iff.mpr hnd, fun t ht => hlt t (key.subset ht)⟩

theorem pipeStep_inv {s : PipeState} (inp : StepInput) (h : pipeInv s) :
    pipeInv (pipeStep s inp) := by
  obtain ⟨hnd, hlt⟩ := h
  cases harr : inp.arrival with
  | none =>
    have hres := pipeInv_scan inp.env hnd hlt
    exact ⟨by simpa [pipeStep, harr] using hres.1, by simpa [pipeStep, harr] using hres.2⟩
  | some a =>
    have hfresh : s.nextTag ∉ s.pending.map Prod.fst ++ s.trace.map eventTag :=
      fun hmem => absurd (hlt _ hmem) (Nat.lt_irrefl _)
    have hnd' : ((s.pending ++ [(s.nextTag, a)]).map Prod.fst
        ++ s.trace.map eventTag).Nodup := by
      have hperm : List.Perm
          ((s.pending ++ [(s.nextTag, a)]).map Prod.fst ++ s.trace.map eventTag)
          (s.nextTag :: (s.pending.map Prod.fst ++ s.trace.map eventTag)) := by
        rw [List.map_append]
        simpa using List.perm_middle
      exact hperm.nodup_iff.mpr (List.nodup_cons.mpr ⟨hfresh, hnd⟩)
    have hlt' : ∀ t ∈ (s.pending ++ [(s.nextTag, a)]).map Prod.fst
        ++ s.trace.map eventTag, t < s.nextTag + 1 := by
      intro t ht
      rw [List.map_append] at ht
      rcases List.mem_append.1 ht with h' | h'
      · rcases List.mem_append.1 h' with h'' | h''
        · exact Nat.lt_succ_of_lt (hlt t (List.mem_append.2 (Or.inl h'')))
        · simp at h''
          omega
      · exact Nat.lt_succ_of_lt (hlt t (List.mem_append.2 (Or.inr h')))
    have hres := pipeInv_scan inp.env hnd' hlt'
    exact ⟨by simpa [pipeStep, harr] using hres.1, by simpa [pipeStep, harr] using hres.2⟩

theorem pipeRun_inv (inps : List StepInput) : pipeInv (pipeRun inps) := by
  have hgen : ∀ s : PipeState, pipeInv s → pipeInv (inps.foldl pipeStep s) := by
    induction inps with
    | nil => intro s hs; exact hs
    | cons i rest ih => intro s hs; exact ih _ (pipeStep_inv i hs)
  exact hgen pipeInit ⟨by simp [pipeInit], by simp [pipeInit]⟩

theorem attachTags_sublist (evs : List PipeEvent) :
    List.Sublist (attachTags evs) (evs.map eventTag) := by
  induction evs with
  | nil => simp [attachTags]
  | cons e rest ih =>
    cases e with
    | expired t => simpa [attachTags, eventTag] using ih.cons t
    | attach t containerPid res => simpa [attachTags, eventTag] using ih.cons₂ t

theorem jsonSafe_append {a b : String} (ha : jsonSafe a) (hb : jsonSafe b) :
    jsonSafe (a ++ b) := by
  intro c hc
  rw [String.data_append] at hc
  rcases List.mem_append.1 hc with h | h
  · exact ha c h
  · exact hb c h

theorem goJSONEscapeChar_safe {c : Char} (h : jsonSafeChar c) :
    goJSONEscapeChar c = [c] := by
  obtain ⟨h1, h2, h3, h4, h5, h6, h7⟩ := h
  have hn : c ≠ '\n' := by intro e; subst e; exact absurd h1 (by decide)
  have hr : c ≠ '\r' := by intro e; subst e; exact absurd h1 (by decide)
  have ht : c ≠ '\t' := by intro e; subst e; exact absurd h1 (by decide)
  simp [goJSONEscapeChar, h3, h4, h5, h6, h7, hn, hr, ht, Nat.not_lt.mpr h1]

theorem goJSONEscape_safe {l : List Char} (h : ∀ c ∈ l, jsonSafeChar c) :
    goJSONEscape l = l := by
  induction l with
  | nil => rfl
  | cons c cs ih =>
    rw [goJSONEscape, goJSONEscapeChar_safe (h c (by simp)),
      ih fun x hx => h x (by simp [hx])]
    rfl

theorem goJSONQuote_safe {s : String} (h : jsonSafe s) :
    goJSONQuote s = "\"" ++ s ++ "\"" := by
  cases s with
  | mk data =>
    rw [goJSONQuote, goJSONEscape_safe h]
    rfl

theorem goMarshalVnic_spec {d : String} (h : jsonSafe d) :
    goMarshalVnic { Name := d, Protocol := protocolEthernet }
      = specInterfaceJson d := by
  rw [goMarshalVnic]
  show "\x7b\"name\":" ++ goJSONQuote d ++ ",\"protocol\":"
      ++ goJSONQuote protocolEthernet ++ "\x7d" = _
  rw [goJSONQuote_safe h, goJSONQuote_safe (by decide : jsonSafe protocolEthernet),
    specInterfaceJson, protocolEthernet]
  apply String.ext
  simp only [String.data_append, List.append_assoc]
  rfl

theorem goMarshalNIR_spec {ns bridge : String} {ds : List String}
    (hns : jsonSafe ns) (hb : jsonSafe bridge) (hne : ds ≠ [])
    (hsafe : ∀ d ∈ ds, jsonSafe d) :
    goMarshalNIR (requestNIR ns bridge ds) = specEnvValueJson ns bridge ds := by
  cases ds with
  | nil => exact absurd rfl hne
  | cons d rest =>
    rw [goMarshalNIR, requestNIR]
    show "\x7b\"name\":" ++ goJSONQuote (ns ++ "/" ++ bridge) ++ ",\"interfaces\":"
        ++ ("[" ++ String.intercalate ","
              (((d :: rest).map fun nic =>
                { Name := nic, Protocol := protocolEthernet : vnic }).map goMarshalVnic)
            ++ "]")
        ++ "\x7d" = _
    rw [goJSONQuote_safe (jsonSafe_append (jsonSafe_append hns (by decide)) hb),
      List.map_map,
      List.map_congr_left (fun x hx => by
        simpa [Function.comp] using goMarshalVnic_spec (hsafe x hx)),
      specEnvValueJson]
    apply String.ext
    simp only [String.data_append, List.append_assoc]
    rfl

theorem allocGo_env_values (rng : Nat → Nat) (ns bridge : String) (now : Nat)
    (reqs : List (List String)) :
    ∀ k, (allocGo (fun r => some (goMarshalNIR r)) rng ns bridge now k reqs).1.map
        (fun r => r.Envs.map Prod.snd)
      = reqs.map fun ds => [goMarshalNIR (requestNIR ns bridge ds)] := by
  induction reqs with
  | nil => intro k; rfl
  | cons ds rest ih =>
    intro k
    simp [allocGo, ih]

/-- C9: with the JSON marshaller of the source, every device ID `d` of a
container request against bridge `b` yields a device-spec entry with the
shared sentinel host path, container path
`/tmp/device-plugin-network-bridge/<b>/<d>` and read-only permission, and the
request's environment-variable value is the JSON object
`{"name":"<namespace>/<b>","interfaces":[...]}` with one
`{"name":"<d>","protocol":"Ethernet"}` entry per requested device ID, in
request order (for device IDs, namespace and bridge names made of plain
printable characters). -/
theorem claim9_device_specs_and_env_value
    (rng : Nat → Nat) (resourceNamespace bridge : String) (now : Nat)
    (reqs : List (List String))
    (hns : jsonSafe resourceNamespace) (hb : jsonSafe bridge)
    (hreqs : ∀ ds ∈ reqs, ds ≠ [] ∧ ∀ d ∈ ds, jsonSafe d) :
    (Allocate (fun r => some (goMarshalNIR r)) rng resourceNamespace bridge now
        reqs).ContainerResponses.map ContainerAllocateResponse.Devices
      = reqs.map (fun ds => ds.map fun d =>
          { HostPath := fakeDevicePath
          , ContainerPath := "/tmp/device-plugin-network-bridge/" ++ bridge ++ "/" ++ d
          , Permissions := "r" })
    ∧ (Allocate (fun r => some (goMarshalNIR r)) rng resourceNamespace bridge now
        reqs).ContainerResponses.map (fun r => r.Envs.map Prod.snd)
      = reqs.map (fun ds => [specEnvValueJson resourceNamespace bridge ds]) := by
  constructor
  · have h := allocGo_responses_devices (fun r => some (goMarshalNIR r)) rng
      resourceNamespace bridge now reqs 0
    simpa [Allocate, getAssignmentPath, List.filter_eq_self] using h
  · have h := allocGo_env_values rng resourceNamespace bridge now reqs 0
    rw [Allocate]
    refine Eq.trans h (List.map_congr_left ?_)
    intro ds hds
    rw [goMarshalNIR_spec hns hb (hreqs ds hds).1 (hreqs ds hds).2]

/-- Witness for C9 at the spec's own scenario: one request for `br0-07`. -/
theorem claim9_witness :
    (Allocate (fun r => some (goMarshalNIR r)) (fun _ => 0) "kubevirt.io" "br0" 0
        [["br0-07"]]).ContainerResponses.map ContainerAllocateResponse.Devices
      = [[{ HostPath := fakeDevicePath
          , ContainerPath := "/tmp/device-plugin-network-bridge/br0/br0-07"
          , Permissions := "r" }]]
    ∧ (Allocate (fun r => some (goMarshalNIR r)) (fun _ => 0) "kubevirt.io" "br0" 0
        [["br0-07"]]).ContainerResponses.map (fun r => r.Envs.map Prod.snd)
      = [[specEnvValueJson "kubevirt.io" "br0" ["br0-07"]]] :=
  claim9_device_specs_and_env_value (fun _ => 0) "kubevirt.io" "br0" 0
    [["br0-07"]] (by decide) (by decide) (by decide)

theorem letterBytes_toUpper_upperAlnum :
    ∀ m : Fin 36, isUpperAlnum ((letterBytes.getD m.val 'a').toUpper) := by decide

theorem goToUpper_randString_length (rng : Nat → Nat) (k : Nat) :
    (goToUpper (randString rng k envVarNameSuffixLen)).length = envVarNameSuffixLen := by
  show (((List.range envVarNameSuffixLen).map _).map Char.toUpper).length = _
  simp

theorem goToUpper_randString_chars (rng : Nat → Nat) (k : Nat) :
    ∀ c ∈ (goToUpper (randString rng k envVarNameSuffixLen)).data, isUpperAlnum c := by
  intro c hc
  have hdata : (goToUpper (randString rng k envVarNameSuffixLen)).data
      = ((List.range envVarNameSuffixLen).map fun i =>
          letterBytes.getD (rng (k + i) % letterBytes.length) 'a').map Char.toUpper := rfl
  rw [hdata, List.map_map] at hc
  simp only [List.mem_map, List.mem_range, Function.comp] at hc
  obtain ⟨i, _, rfl⟩ := hc
  have hlt : rng (k + i) % letterBytes.length < 36 :=
    Nat.mod_lt _ (by decide)
  exact letterBytes_toUpper_upperAlnum ⟨rng (k + i) % letterBytes.length, hlt⟩

theorem string_append_cancel_left {p a b : String} (h : p ++ a = p ++ b) :
    a = b := by
  have hd : (p ++ a).data = (p ++ b).data := by rw [h]
  rw [String.data_append, String.data_append] at hd
  have hab := List.append_cancel_left hd
  cases a; cases b
  exact congrArg String.mk (by simpa using hab)

theorem allocGo_envNames_sublist
    (marshal : networkInterfaceResources → Option String)
    (rng : Nat → Nat) (ns bridge : String) (now : Nat) (reqs : List (List String)) :
    ∀ k, List.Sublist (envNamesOf (allocGo marshal rng ns bridge now k reqs).1)
      ((List.range reqs.length).map fun i =>
        allocEnvVarName rng (k + envVarNameSuffixLen * i)) := by
  induction reqs with
  | nil => intro k; simp [envNamesOf, allocGo]
  | cons ds rest ih =>
    intro k
    have hrange : ((List.range (ds :: rest).length).map fun i =>
          allocEnvVarName rng (k + envVarNameSuffixLen * i))
        = allocEnvVarName rng (k + envVarNameSuffixLen * 0)
            :: ((List.range rest.length).map fun i =>
              allocEnvVarName rng (k + envVarNameSuffixLen + envVarNameSuffixLen * i)) := by
      rw [List.length_cons, List.range_succ_eq_map, List.map_cons, List.map_map]
      refine congrArg _ ?_
      refine List.map_congr_left ?_
      intro i _
      have harith : k + envVarNameSuffixLen * (i + 1)
          = k + envVarNameSuffixLen + envVarNameSuffixLen * i := by ring
      simp [Function.comp, Nat.succ_eq_add_one, harith]
    rw [hrange]
    have ihk := ih (k + envVarNameSuffixLen)
    cases h : marshal (requestNIR ns bridge ds) with
    | none =>
      refine List.Sublist.cons _ ?_
      simpa [envNamesOf, allocGo, h] using ihk
    | some m =>
      have hunfold : envNamesOf (allocGo marshal rng ns bridge now k (ds :: rest)).1
          = allocEnvVarName rng k
              :: envNamesOf (allocGo marshal rng ns bridge now
                  (k + envVarNameSuffixLen) rest).1 := by
        simp [envNamesOf, allocGo, h]
      rw [hunfold]
      simpa using List.Sublist.cons₂ (allocEnvVarName rng k) ihk

/-- C8 counterexample: the source does not enforce distinctness of the
randomized environment-variable names; with a random stream that repeats, the
two container requests of one Allocate call receive the same name, so the
names produced within a single call are not pairwise distinct. -/
theorem claim8_counterexample :
    envNamesOf (Allocate (fun _ => some "") (fun _ => 0) "ns" "br0" 0
        [["br0-00"], ["br0-01"]]).ContainerResponses
      = ["NETWORK_INTERFACE_RESOURCES_AAAAAAAA",
         "NETWORK_INTERFACE_RESOURCES_AAAAAAAA"]
    ∧ ¬ (envNamesOf (Allocate (fun _ => some "") (fun _ => 0) "ns" "br0" 0
        [["br0-00"], ["br0-01"]]).ContainerResponses).Nodup := by
  constructor
  · rfl
  · decide

/-- C8 (amended): every environment-variable name produced for a container
response consists of the fixed "NETWORK_INTERFACE_RESOURCES_" head followed
by an 8-character upper-case alphanumeric suffix drawn from the random
stream; the names are pairwise distinct whenever the 8-character suffixes
drawn for different container requests are pairwise distinct (the code does
not itself enforce distinctness). -/
theorem claim8_amended_envvar_name_format_and_distinctness
    (marshal : networkInterfaceResources → Option String)
    (rng : Nat → Nat) (ns bridge : String) (now : Nat) (reqs : List (List String)) :
    (∀ nm ∈ envNamesOf (Allocate marshal rng ns bridge now reqs).ContainerResponses,
        ∃ s, nm = envVarNameHead ++ s ∧ s.length = envVarNameSuffixLen
          ∧ ∀ c ∈ s.data, isUpperAlnum c)
    ∧ ((∀ i j : Nat, i < reqs.length → j < reqs.length → i ≠ j →
          goToUpper (randString rng (envVarNameSuffixLen * i) envVarNameSuffixLen)
            ≠ goToUpper (randString rng (envVarNameSuffixLen * j) envVarNameSuffixLen)) →
        (envNamesOf (Allocate marshal rng ns bridge now reqs).ContainerResponses).Nodup) := by
  have hsub : List.Sublist
      (envNamesOf (Allocate marshal rng ns bridge now reqs).ContainerResponses)
      ((List.range reqs.length).map fun i =>
        allocEnvVarName rng (envVarNameSuffixLen * i)) := by
    have h0 := allocGo_envNames_sublist marshal rng ns bridge now reqs 0
    simpa [Allocate] using h0
  constructor
  · intro nm hnm
    have hmem := hsub.subset hnm
    simp only [List.mem_map, List.mem_range] at hmem
    obtain ⟨i, _, rfl⟩ := hmem
    exact ⟨goToUpper (randString rng (envVarNameSuffixLen * i) envVarNameSuffixLen),
      rfl, goToUpper_randString_length rng _, goToUpper_randString_chars rng _⟩
  · intro hdist
    refine hsub.nodup ?_
    refine (List.nodup_range reqs.length).map_on ?_
    intro x hx y hy hxy
    by_contra hne
    simp only [List.mem_range] at hx hy
    have hsuffix := string_append_cancel_left
      (show envVarNameHead ++ _ = envVarNameHead ++ _ by
        simpa [allocEnvVarName] using hxy)
    exact hdist x y hx hy hne hsuffix

/-- Witness for C8's amended theorem: with the identity stream the two drawn
suffixes differ, so the two names in the call are distinct. -/
theorem claim8_amended_witness :
    (envNamesOf (Allocate (fun _ => some "") (fun n => n) "ns" "br0" 0
        [["br0-00"], ["br0-01"]]).ContainerResponses).Nodup := by
  refine (claim8_amended_envvar_name_format_and_distinctness
    (fun _ => some "") (fun n => n) "ns" "br0" 0 [["br0-00"], ["br0-01"]]).2 ?_
  intro i j hi hj hne
  have hi2 : i < 2 := by simpa using hi
  have hj2 : j < 2 := by simpa using hj
  interval_cases i <;> interval_cases j <;>
    first
      | exact absurd rfl hne
      | decide

/-- Witness for C10 at a concrete failing marshaller. -/
theorem claim10_witness :
    (Allocate (fun _ => none) (fun _ => 0) "ns" "br0" 5 [["br0-00"]]).ContainerResponses = []
      ∧ (Allocate (fun _ => none) (fun _ => 0) "ns" "br0" 5 [["br0-00"]]).sentAssignments
        = [{ DeviceID := "br0-00"
           , ContainerPath := getAssignmentPath "br0" "br0-00", Created := 5 }] :=
  (claim10_assignments_sent_before_marshal (fun _ => none) (fun _ => none)
    (fun _ => 0) "ns" "br0" 5 [["br0-00"]]).2 ["br0-00"] rfl

/-- C1 (refuted — code bug): in a pass over `[stale, ready]` where the first
entry is expired and the second is resolvable, removing the first entry ends
the pass: the second entry is left pending and no attach event is produced
for it in that same pass, although it was resolvable.  (Go's
`container/list.Remove` nils the element's links, so `a.Next()` after the
removal is nil.)  This contradicts the claim that every entry after a removed
one is still visited in the same pass. -/
theorem claim1_removal_ends_the_pass :
    expiredAt scanEnvRemoval asgStale
    ∧ ¬ expiredAt scanEnvRemoval asgReady
    ∧ resolves scanEnvRemoval asgReady = some 42
    ∧ scanPending scanEnvRemoval [(0, asgStale), (1, asgReady)]
        = ([(1, asgReady)], [PipeEvent.expired 0]) :=
  ⟨by decide, by decide, by decide, by decide⟩

/-- C4: over any run of the pipeline, `attachPodToBridge` is invoked at most
once per queued Assignment (the attach-event tags of the whole trace are
pairwise distinct) and an Assignment that was attached is no longer pending;
moreover, in the pass that first reaches a resolvable entry, the Attachment
Engine is invoked exactly once for it and the entry is removed regardless of
the attach call's result. -/
theorem claim4_attach_engine_invoked_at_most_once :
    (∀ inps : List StepInput,
        (attachTags (pipeRun inps).trace).Nodup
        ∧ ∀ t ∈ attachTags (pipeRun inps).trace,
            t ∉ (pipeRun inps).pending.map Prod.fst)
    ∧ (∀ (env : ScanEnv) (p₁ p₂ : List (Nat × Assignment)) (t : Nat)
          (a : Assignment) (containerPid : Nat),
        (∀ x ∈ p₁, leftInPlace env x.2) → ¬ expiredAt env a →
        resolves env a = some containerPid →
        scanPending env (p₁ ++ (t, a) :: p₂)
          = (p₁ ++ p₂,
             [PipeEvent.attach t containerPid
                (env.attachResult a.DeviceID containerPid)])) := by
  constructor
  · intro inps
    obtain ⟨hnd, hlt⟩ := pipeRun_inv inps
    have htr : ((pipeRun inps).trace.map eventTag).Nodup :=
      hnd.of_append_right
    refine ⟨(attachTags_sublist _).nodup htr, ?_⟩
    intro t ht hpend
    have ht' : t ∈ (pipeRun inps).trace.map eventTag :=
      (attachTags_sublist _).subset ht
    exact (List.disjoint_of_nodup_append hnd) hpend ht'
  · exact scanPending_reaches_resolved

/-- Witness for C4: the resolvable entry is attached exactly once and
removed in its pass. -/
theorem claim4_witness :
    scanPending scanEnvResolved [(5, asgResolved)]
      = ([], [PipeEvent.attach 5 1234 none]) := by
  have h := claim4_attach_engine_invoked_at_most_once.2 scanEnvResolved [] []
    5 asgResolved 1234 (by simp) (by decide) (by decide)
  simpa using h

/-- C5 counterexample: with two expired never-resolvable entries pending,
the next pass removes only the first one — removing it ends the pass, so the
second expired entry is still pending after that pass, contradicting the
claim that an expired Assignment is removed at the next scan. -/
theorem claim5_counterexample :
    expiredAt scanEnvAllExpired asgStaleYoung
    ∧ scanPending scanEnvAllExpired [(0, asgStaleOld), (1, asgStaleYoung)]
        = ([(1, asgStaleYoung)], [PipeEvent.expired 0])
    ∧ (1, asgStaleYoung)
        ∈ (scanPending scanEnvAllExpired [(0, asgStaleOld), (1, asgStaleYoung)]).1 :=
  ⟨by decide, by decide, by decide⟩

/-- C5 (amended): an expired Assignment never triggers the Attachment Engine
— every attach event of a pass belongs to a non-expired entry that resolved
in that pass — and an expired entry is removed, with no attach attempted, by
the first pass in which every entry before it is left in place; because any
removal ends a pass early, that removal can happen later than the next pass,
but no kernel link creation is ever triggered for the expired Assignment. -/
theorem claim5_amended_expired_never_attached :
    (∀ (env : ScanEnv) (p : List (Nat × Assignment)) (t containerPid : Nat)
        (res : Option String),
        PipeEvent.attach t containerPid res ∈ (scanPending env p).2 →
        ∃ a, (t, a) ∈ p ∧ ¬ expiredAt env a ∧ resolves env a = some containerPid)
    ∧ (∀ (env : ScanEnv) (p₁ p₂ : List (Nat × Assignment)) (t : Nat)
          (a : Assignment),
        (∀ x ∈ p₁, leftInPlace env x.2) → expiredAt env a →
        scanPending env (p₁ ++ (t, a) :: p₂)
          = (p₁ ++ p₂, [PipeEvent.expired t])) := by
  constructor
  · intro env p t containerPid res h
    obtain ⟨a, ha, h2, h3, _⟩ := scanPending_attach_mem env p t containerPid res h
    exact ⟨a, ha, h2, h3⟩
  · exact scanPending_reaches_expired

/-- Witness for C5's amended theorem: a pass reaching an expired entry
removes it with no attach event. -/
theorem claim5_amended_witness :
    scanPending scanEnvAllExpired [(7, asgStaleOld)]
      = ([], [PipeEvent.expired 7]) := by
  have h := claim5_amended_expired_never_attached.2 scanEnvAllExpired [] []
    7 asgStaleOld (by simp) (by decide)
  simpa using h

theorem attachInNS_fault (env : AttachEnv) (step : String)
    (h : (attachInNS env).1 = AttachOutcome.fault step) :
    (attachInNS env).2 = false := by
  rw [attachInNS] at h ⊢
  cases h10 : env.linkByNamePeerInNSOk <;> cases h11 : env.linkSetMTUOk <;>
    cases h12 : env.linkSetUpPeerOk <;> simp_all

theorem attachInNS_ne_panicked (env : AttachEnv) :
    (attachInNS env).1 ≠ AttachOutcome.panicked := by
  rw [attachInNS]
  cases h10 : env.linkByNamePeerInNSOk <;> cases h11 : env.linkSetMTUOk <;>
    cases h12 : env.linkSetUpPeerOk <;> simp

/-- C2: whenever `attachPodToBridge` returns a fault after the veth pair was
created, the host-side link (and with it the pair, since deleting the host
end removes both) no longer exists when the call returns. -/
theorem claim2_fault_deletes_host_link (env : AttachEnv) (step : String)
    (hcreated : env.linkAddOk = true)
    (hfault : (attachPodToBridge env).outcome = AttachOutcome.fault step) :
    (attachPodToBridge env).hostLinkExists = false := by
  cases h1 : env.linkByNameBridgeOk with
  | false => simp [attachPodToBridge, h1]
  | true =>
  cases h2 : env.linkAddOk with
  | false => simp [attachPodToBridge, h1, h2]
  | true =>
  cases h3 : env.linkSetUpHostOk with
  | false => simp [attachPodToBridge, h1, h2, h3]
  | true =>
  cases h4 : env.linkByNamePeerOk with
  | false => simp [attachPodToBridge, h1, h2, h3, h4]
  | true =>
  cases h5 : env.linkSetNsPidOk with
  | false => simp [attachPodToBridge, h1, h2, h3, h4, h5]
  | true =>
  cases h6 : env.netnsGetOk with
  | false => simp [attachPodToBridge, h1, h2, h3, h4, h5, h6]
  | true =>
  cases h7 : env.netnsGetFromPidOk with
  | false => simp [attachPodToBridge, h1, h2, h3, h4, h5, h6, h7]
  | true =>
  cases h8 : env.netnsSetOk with
  | false => simp [attachPodToBridge, h1, h2, h3, h4, h5, h6, h7, h8]
  | true =>
  cases h9 : env.netnsRestoreOk with
  | true =>
    have hbody : (attachInNS env).1 = AttachOutcome.fault step := by
      simpa [attachPodToBridge, h1, h2, h3, h4, h5, h6, h7, h8, h9] using hfault
    simpa [attachPodToBridge, h1, h2, h3, h4, h5, h6, h7, h8, h9] using
      attachInNS_fault env step hbody
  | false =>
    have hcontra : AttachOutcome.panicked = AttachOutcome.fault step := by
      simpa [attachPodToBridge, h1, h2, h3, h4, h5, h6, h7, h8, h9] using hfault
    cases hcontra

/-- Witness for C2 at the spec's step-11 scenario: the peer-MTU call fails,
a fault is returned, and the host-side link is gone. -/
theorem claim2_witness :
    (attachPodToBridge attachEnvMTUFault).hostLinkExists = false :=
  claim2_fault_deletes_host_link attachEnvMTUFault "LinkSetMTU" rfl (by decide)

/-- C3: once the thread has been switched into the container's namespace,
every returning exit path (success or fault) has the thread back in the
original namespace; if the restoration itself fails the call panics instead
of returning, and it panics only in that case. -/
theorem claim3_namespace_restored_or_panic (env : AttachEnv)
    (hswitched : (attachPodToBridge env).switched = true) :
    ((attachPodToBridge env).outcome ≠ AttachOutcome.panicked →
        (attachPodToBridge env).threadNS = env.initialNS)
    ∧ (env.netnsRestoreOk = false →
        (attachPodToBridge env).outcome = AttachOutcome.panicked)
    ∧ (env.netnsRestoreOk = true →
        (attachPodToBridge env).outcome ≠ AttachOutcome.panicked) := by
  cases h1 : env.linkByNameBridgeOk with
  | false => simp [attachPodToBridge, h1] at hswitched
  | true =>
  cases h2 : env.linkAddOk with
  | false => simp [attachPodToBridge, h1, h2] at hswitched
  | true =>
  cases h3 : env.linkSetUpHostOk with
  | false => simp [attachPodToBridge, h1, h2, h3] at hswitched
  | true =>
  cases h4 : env.linkByNamePeerOk with
  | false => simp [attachPodToBridge, h1, h2, h3, h4] at hswitched
  | true =>
  cases h5 : env.linkSetNsPidOk with
  | false => simp [attachPodToBridge, h1, h2, h3, h4, h5] at hswitched
  | true =>
  cases h6 : env.netnsGetOk with
  | false => simp [attachPodToBridge, h1, h2, h3, h4, h5, h6] at hswitched
  | true =>
  cases h7 : env.netnsGetFromPidOk with
  | false => simp [attachPodToBridge, h1, h2, h3, h4, h5, h6, h7] at hswitched
  | true =>
  cases h8 : env.netnsSetOk with
  | false => simp [attachPodToBridge, h1, h2, h3, h4, h5, h6, h7, h8] at hswitched
  | true =>
  cases h9 : env.netnsRestoreOk with
  | true =>
    refine ⟨?_, ?_, ?_⟩
    · intro _
      simp [attachPodToBridge, h1, h2, h3, h4, h5, h6, h7, h8, h9]
    · intro hfalse
      exact absurd hfalse (by decide)
    · intro _
      simp only [attachPodToBridge, h1, h2, h3, h4, h5, h6, h7, h8, h9]
      simpa using attachInNS_ne_panicked env
  | false =>
    refine ⟨?_, ?_, ?_⟩
    · intro hnp
      exact absurd (by simp [attachPodToBridge, h1, h2, h3, h4, h5, h6, h7, h8, h9]) hnp
    · intro _
      simp [attachPodToBridge, h1, h2, h3, h4, h5, h6, h7, h8, h9]
    · intro htrue
      exact absurd htrue (by decide)

/-- Witness for C3: restoration failure panics; with restoration succeeding,
a fault path still ends in the original namespace. -/
theorem claim3_witness :
    (attachPodToBridge attachEnvRestoreFault).outcome = AttachOutcome.panicked
    ∧ (attachPodToBridge attachEnvMTUFault).threadNS = 1 :=
  ⟨(claim3_namespace_restored_or_panic attachEnvRestoreFault rfl).2.1 rfl,
   (claim3_namespace_restored_or_panic attachEnvMTUFault rfl).1 (by decide)⟩
